import Mathlib

/-!
Shallow embedding of `src/main.py`, an MCP expense-tracker server backed by a
single SQLite table `expenses(id, date, amount, category, subcategory, note)`.

Modelling choices:
* The table is a list of rows together with the AUTOINCREMENT counter
  (`nextId`); `INTEGER PRIMARY KEY AUTOINCREMENT` assigns `nextId` and bumps
  it on every successful insert.
* SQLite `REAL` amounts are modelled as `Rat`; `TEXT` columns as `String`.
* SQLite compares `TEXT` with the BINARY collation (memcmp over UTF-8
  bytes), which orders strings by their code-point sequences; `strLe` below
  is that order, so `date BETWEEN ? AND ?` is
  `strLe s r.date && strLe r.date e`.
* Each tool returns its structured result value; `{status:"ok", ...}` /
  `{status:"error", message}` become the `OpResult` inductive.
-/

namespace ExpenseTracker

/-- Lexicographic comparison of code-point sequences, `memcmp` style: the
SQLite BINARY collation used for `TEXT` comparisons such as
`date BETWEEN ? AND ?` and `ORDER BY category ASC`. -/
def charListLe : List Char → List Char → Bool
  | [], _ => true
  | _ :: _, [] => false
  | a :: as, b :: bs =>
    if a < b then true
    else if b < a then false
    else charListLe as bs

/-- `a ≤ b` in the SQLite BINARY collation on `TEXT` values. -/
def strLe (a b : String) : Bool := charListLe a.data b.data

/-- One row of the `expenses` table (schema from `init_db`, src/main.py
lines 16-25). -/
structure Expense where
  id : Nat
  date : String
  amount : Rat
  category : String
  subcategory : String
  note : String
deriving DecidableEq, Repr

/-- Structured result of a mutating tool: `{"status":"ok", ...id}` or
`{"status":"error", "message": ...}`. -/
inductive OpResult where
  | ok (theId : Nat)
  | error (message : String)
deriving DecidableEq, Repr

/-- Database state: rows of the `expenses` table plus the AUTOINCREMENT
counter (next id to assign; AUTOINCREMENT never reuses ids). -/
structure DB where
  rows : List Expense
  nextId : Nat
deriving DecidableEq, Repr

/-- The state after `init_db` on a fresh file: empty table, ids start at 1. -/
def initDb : DB := ⟨[], 1⟩

/-- The AUTOINCREMENT invariant: every stored id is below the counter, so the
next assigned id is fresh. -/
def FreshIds (db : DB) : Prop := ∀ r ∈ db.rows, r.id < db.nextId

/-- `WHERE date BETWEEN ? AND ?` (inclusive comparison on the `TEXT`
column in the BINARY collation). -/
def dateIn (s e : String) (r : Expense) : Bool :=
  strLe s r.date && strLe r.date e

/-- `add_expense` (src/main.py lines 35-44): INSERT one row, the store
assigns the id (`cur.lastrowid`); returns `{"status":"ok","id": lastrowid}`,
modelled as the new state paired with the returned id. -/
def add_expense (db : DB) (date : String) (amount : Rat) (category : String)
    (subcategory : String := "") (note : String := "") : DB × Nat :=
  (⟨db.rows ++ [⟨db.nextId, date, amount, category, subcategory, note⟩],
    db.nextId + 1⟩, db.nextId)

/-- `list_expenses` (src/main.py lines 46-61): rows with
`date BETWEEN start AND end`, `ORDER BY id ASC`. -/
def list_expenses (db : DB) (start_date end_date : String) : List Expense :=
  List.insertionSort (fun a b => a.id ≤ b.id)
    (db.rows.filter (dateIn start_date end_date))

/-- Python truthiness of the `category` argument in `if category:`
(src/main.py line 70): `None` and the empty string are falsy, so the
`AND category = ?` clause is appended only for a non-empty string. -/
def catFilterActive : Option String → Bool
  | none => false
  | some c => c ≠ ""

/-- The row set selected by `summarize`'s WHERE clause: date range plus the
optional category equality (appended only when the argument is truthy). -/
def matchingRows (db : DB) (start_date end_date : String)
    (category : Option String) : List Expense :=
  let base := db.rows.filter (dateIn start_date end_date)
  match category with
  | some c => if c ≠ "" then base.filter (fun r => decide (r.category = c)) else base
  | none => base

/-- `summarize` (src/main.py lines 63-78): `SELECT category, SUM(amount) ...
GROUP BY category ORDER BY category ASC`; one output pair per distinct
category among the selected rows (each group is nonempty by construction,
so its SUM is the plain sum of the group's amounts). -/
def summarize (db : DB) (start_date end_date : String)
    (category : Option String := none) : List (String × Rat) :=
  let f := matchingRows db start_date end_date category
  let cats := (f.map (·.category)).dedup
  (List.insertionSort (fun a b : String => strLe a b = true) cats).map
    (fun c => (c, ((f.filter (fun r => decide (r.category = c))).map (·.amount)).sum))

/-- `delete_expense` (src/main.py lines 80-89): `DELETE FROM expenses WHERE
id = ?`, then report ok or `Expense not found` depending on `cur.rowcount`. -/
def delete_expense (db : DB) (expense_id : Nat) : DB × OpResult :=
  let rows := db.rows.filter (fun r => decide (r.id ≠ expense_id))
  let rowcount := db.rows.countP (fun r => decide (r.id = expense_id))
  if rowcount ≠ 0 then (⟨rows, db.nextId⟩, .ok expense_id)
  else (⟨rows, db.nextId⟩, .error "Expense not found")

/-- `update_expense` (src/main.py lines 91-123): each argument that
`is not None` contributes a `field = ?` assignment; with no assignments the
call returns the no-fields error before any statement reaches the table;
otherwise the UPDATE rewrites the matching row (absent fields keep their
values) and `cur.rowcount` decides between ok and `Expense not found` (the
UPDATE is still executed and committed in the latter case, changing
nothing). -/
def update_expense (db : DB) (expense_id : Nat)
    (date : Option String := none) (amount : Option Rat := none)
    (category : Option String := none) (subcategory : Option String := none)
    (note : Option String := none) : DB × OpResult :=
  let fieldsSupplied :=
    date.isSome || amount.isSome || category.isSome ||
      subcategory.isSome || note.isSome
  if fieldsSupplied then
    let rows := db.rows.map (fun r =>
      if r.id = expense_id then
        { r with date := date.getD r.date, amount := amount.getD r.amount,
                 category := category.getD r.category,
                 subcategory := subcategory.getD r.subcategory,
                 note := note.getD r.note }
      else r)
    let rowcount := db.rows.countP (fun r => decide (r.id = expense_id))
    if rowcount ≠ 0 then (⟨rows, db.nextId⟩, .ok expense_id)
    else (⟨rows, db.nextId⟩, .error "Expense not found")
  else (db, .error "No fields provided to update")

/-- `SELECT SUM(amount) ...`: SQL SUM is NULL on an empty row set, the sum of
the column otherwise. -/
def sqlSumAmounts (l : List Expense) : Option Rat :=
  if l.isEmpty then none else some ((l.map (·.amount)).sum)

/-- `total_expenses` (src/main.py lines 125-135): `row[0] or 0` turns a NULL
sum into the number 0 (when the sum is the falsy 0.0 the `or` also yields 0,
which is the same value), so the `total` payload is `Option.getD` of the SQL
sum. -/
def total_expenses (db : DB) (start_date end_date : String) : Rat :=
  (sqlSumAmounts (db.rows.filter (dateIn start_date end_date))).getD 0

/-- Python resolution of a global name: it must be bound in the module's
global namespace (the builtins hold no name relevant here). -/
def resolveName (boundNames : List String) (n : String) : Bool :=
  boundNames.contains n

/-- The names bound at module scope in src/main.py: the four imports
(`from fastmcp import FastMCP`, `import os`, `import aiosqlite`,
`import asyncio`) and the module-level definitions.  `aiofiles` is used at
line 144 but appears in no import statement. -/
def mainModuleNames : List String :=
  ["FastMCP", "os", "aiosqlite", "asyncio", "DB_PATH", "CATEGORIES_PATH",
   "mcp", "init_db", "add_expense", "list_expenses", "summarize",
   "delete_expense", "update_expense", "total_expenses", "categories"]

/-- The `categories` resource body (src/main.py lines 141-145): it evaluates
`aiofiles.open(CATEGORIES_PATH, ...)`, which first looks up the name
`aiofiles`; if the name is unbound the lookup raises `NameError` and nothing
is read, otherwise the handler reads the file fresh and returns the raw
content unmodified (no parsing, no caching). -/
def categories (boundNames : List String) (fileContent : String) :
    Except String String :=
  if resolveName boundNames "aiofiles" then Except.ok fileContent
  else Except.error "NameError: name aiofiles is not defined"

/-- `add_expense` as reached with possibly-NULL values for the three columns
declared `NOT NULL` by `init_db` (src/main.py lines 16-25): SQLite rejects
the INSERT with an IntegrityError when any of `date`, `amount`, `category`
is NULL, so no row is added; otherwise the insert proceeds as
`add_expense`. -/
def addExpenseChecked (db : DB) (date : Option String) (amount : Option Rat)
    (category : Option String) (subcategory note : String) :
    Except String (DB × Nat) :=
  match date, amount, category with
  | some d, some a, some c => .ok (add_expense db d a c subcategory note)
  | _, _, _ => .error "IntegrityError: NOT NULL constraint failed"

/-! ### Order facts about the BINARY collation -/

theorem charListLe_cons_self (a : Char) (as bs : List Char) :
    charListLe (a :: as) (a :: bs) = charListLe as bs := by
  simp [charListLe, lt_irrefl]

theorem charListLe_total : ∀ as bs : List Char,
    charListLe as bs = true ∨ charListLe bs as = true
  | [], [] => Or.inl rfl
  | [], _ :: _ => Or.inl rfl
  | _ :: _, [] => Or.inr rfl
  | a :: as, b :: bs => by
    rcases lt_trichotomy a b with hab | hab | hab
    · left
      simp [charListLe, hab]
    · subst hab
      rcases charListLe_total as bs with h | h
      · left
        simp [charListLe, lt_irrefl, h]
      · right
        simp [charListLe, lt_irrefl, h]
    · right
      simp [charListLe, hab]

theorem charListLe_trans : ∀ {as bs cs : List Char},
    charListLe as bs = true → charListLe bs cs = true → charListLe as cs = true
  | [], _, _, _, _ => rfl
  | a :: as, [], _, h, _ => by simp [charListLe] at h
  | a :: as, b :: bs, [], _, h => by simp [charListLe] at h
  | a :: as, b :: bs, c :: cs, h₁, h₂ => by
    rcases lt_trichotomy a b with hab | hab | hab
    · rcases lt_trichotomy b c with hbc | hbc | hbc
      · simp [charListLe, lt_trans hab hbc]
      · subst hbc
        simp [charListLe, hab]
      · exfalso
        simp [charListLe, hbc, lt_asymm hbc] at h₂
    · subst hab
      rcases lt_trichotomy a c with hac | hac | hac
      · simp [charListLe, hac]
      · subst hac
        rw [charListLe_cons_self] at h₁ h₂ ⊢
        exact charListLe_trans h₁ h₂
      · exfalso
        simp [charListLe, hac, lt_asymm hac] at h₂
    · exfalso
      simp [charListLe, hab, lt_asymm hab] at h₁

theorem charListLe_antisymm : ∀ {as bs : List Char},
    charListLe as bs = true → charListLe bs as = true → as = bs
  | [], [], _, _ => rfl
  | [], _ :: _, _, h => by simp [charListLe] at h
  | _ :: _, [], h, _ => by simp [charListLe] at h
  | a :: as, b :: bs, h₁, h₂ => by
    rcases lt_trichotomy a b with hab | hab | hab
    · exfalso
      simp [charListLe, hab, lt_asymm hab] at h₂
    · subst hab
      rw [charListLe_cons_self] at h₁ h₂
      exact congrArg (a :: ·) (charListLe_antisymm h₁ h₂)
    · exfalso
      simp [charListLe, hab, lt_asymm hab] at h₁

theorem strLe_total (a b : String) : strLe a b = true ∨ strLe b a = true :=
  charListLe_total a.data b.data

theorem strLe_trans {a b c : String} (h₁ : strLe a b = true)
    (h₂ : strLe b c = true) : strLe a c = true :=
  charListLe_trans h₁ h₂

theorem strLe_antisymm {a b : String} (h₁ : strLe a b = true)
    (h₂ : strLe b a = true) : a = b := by
  cases a with
  | mk da => cases b with
    | mk db => exact congrArg String.mk (charListLe_antisymm h₁ h₂)

section Sorting

instance : DecidableRel (fun a b : Expense => a.id ≤ b.id) :=
  fun a b => inferInstanceAs (Decidable (a.id ≤ b.id))

instance : IsTotal Expense (fun a b => a.id ≤ b.id) :=
  ⟨fun a b => Nat.le_total a.id b.id⟩

instance : IsTrans Expense (fun a b => a.id ≤ b.id) :=
  ⟨fun _ _ _ => Nat.le_trans⟩

instance : DecidableRel (fun a b : String => strLe a b = true) :=
  fun a b => inferInstanceAs (Decidable (strLe a b = true))

instance : IsTotal String (fun a b => strLe a b = true) :=
  ⟨strLe_total⟩

instance : IsTrans String (fun a b => strLe a b = true) :=
  ⟨fun _ _ _ => strLe_trans⟩

end Sorting

instance (db : DB) : Decidable (FreshIds db) :=
  inferInstanceAs (Decidable (∀ r ∈ db.rows, r.id < db.nextId))

/-- A concrete one-row table used to instantiate the theorems below:
the state after `add_expense("2024-01-05", 1, "food")` on a fresh file. -/
def foodDb : DB := (add_expense initDb "2024-01-05" 1 "food").1

/-! ### Helper lemmas -/

theorem countP_id_eq_zero {l : List Expense} {i : Nat}
    (h : ∀ r ∈ l, r.id ≠ i) :
    l.countP (fun r => decide (r.id = i)) = 0 :=
  List.countP_eq_zero.mpr fun r hr => by simpa using h r hr

theorem countP_id_ne_zero {l : List Expense} {i : Nat}
    (h : ∃ r ∈ l, r.id = i) :
    l.countP (fun r => decide (r.id = i)) ≠ 0 := by
  rcases h with ⟨r, hr, hid⟩
  have hpos : 0 < l.countP (fun r => decide (r.id = i)) :=
    List.countP_pos_iff.mpr ⟨r, hr, by simpa using hid⟩
  omega

theorem map_ite_id_of_no_match {l : List Expense} {i : Nat}
    (f : Expense → Expense) (h : ∀ r ∈ l, r.id ≠ i) :
    l.map (fun r => if r.id = i then f r else r) = l :=
  (List.map_congr_left fun r hr => if_neg (h r hr)).trans (List.map_id l)

/-! ### Claims -/

/-- C10: when `update_expense` is called with zero fields supplied, the
`No fields provided to update` error is returned regardless of whether the
given `expense_id` exists (the returned state and value do not depend on the
table contents at all); the no-fields check precedes the not-found check and
no write happens. -/
theorem update_no_fields_precedence (db : DB) (i : Nat) :
    update_expense db i none none none none none =
      (db, .error "No fields provided to update") := rfl

/-- C7: `update_expense` with zero fields supplied returns a structured
error whose message differs from the not-found message, and performs no
write; with at least one field supplied but an id matching no row it returns
the structured not-found error and leaves the table unchanged.  Both
outcomes are returned values, not exceptions. -/
theorem update_expense_error_cases (db : DB) (i : Nat) :
    (update_expense db i none none none none none =
      (db, .error "No fields provided to update")) ∧
    ("No fields provided to update" ≠ "Expense not found") ∧
    (∀ (d : Option String) (a : Option Rat) (c su no : Option String),
      (d.isSome || a.isSome || c.isSome || su.isSome || no.isSome) = true →
      (∀ r ∈ db.rows, r.id ≠ i) →
      update_expense db i d a c su no = (db, .error "Expense not found")) := by
  refine ⟨rfl, by decide, ?_⟩
  intro d a c su no hsup hnone
  have hc := countP_id_eq_zero hnone
  simp only [update_expense, hsup, if_true, hc, ne_eq, not_true_eq_false,
    if_false]
  rw [map_ite_id_of_no_match _ hnone]

/-- Witness for C7 at a concrete table and id. -/
theorem update_expense_error_cases_witness :
    (update_expense foodDb 99 none none none none none =
      (foodDb, .error "No fields provided to update")) ∧
    (update_expense foodDb 99 (some "2024-03-01") none none none none =
      (foodDb, .error "Expense not found")) := by
  have h := update_expense_error_cases foodDb 99
  exact ⟨h.1, h.2.2 (some "2024-03-01") none none none none (by decide)
    (by decide)⟩

/-- C6: deleting an id not present in the table returns the structured
not-found result (no exception) and leaves the table unchanged. -/
theorem delete_missing_id_structured_error (db : DB) (i : Nat)
    (h : ∀ r ∈ db.rows, r.id ≠ i) :
    delete_expense db i = (db, .error "Expense not found") := by
  have hc := countP_id_eq_zero h
  have hf : db.rows.filter (fun r => decide (r.id ≠ i)) = db.rows :=
    List.filter_eq_self.mpr fun r hr => by simpa using h r hr
  simp only [delete_expense, hc, ne_eq, not_true_eq_false, if_false, hf]

/-- Witness for C6 at a concrete table and id. -/
theorem delete_missing_id_structured_error_witness :
    delete_expense foodDb 99 = (foodDb, .error "Expense not found") :=
  delete_missing_id_structured_error foodDb 99 (by decide)

/-- C5: `total_expenses` returns the numeric sum of the matching amounts,
and in particular the number `0` (never a NULL/missing value) when no
record matches the range. -/
theorem total_expenses_zero_or_sum (db : DB) (s e : String) :
    (total_expenses db s e =
      ((db.rows.filter (dateIn s e)).map (·.amount)).sum) ∧
    (db.rows.filter (dateIn s e) = [] → total_expenses db s e = 0) := by
  constructor
  · by_cases h : db.rows.filter (dateIn s e) = []
    · simp [total_expenses, sqlSumAmounts, h]
    · simp [total_expenses, sqlSumAmounts, List.isEmpty_iff, h]
  · intro h
    simp [total_expenses, sqlSumAmounts, h]

/-- Witness for C5: a range matching no record yields the number 0. -/
theorem total_expenses_zero_or_sum_witness :
    total_expenses foodDb "2025-01-01" "2025-12-31" = 0 :=
  (total_expenses_zero_or_sum foodDb "2025-01-01" "2025-12-31").2 (by decide)

/-- C4: updating an existing id with only `note=""` supplied succeeds and
rewrites exactly the matching rows, setting `note` to the empty string and
keeping every other field; rows with a different id are untouched. -/
theorem update_note_empty_string (db : DB) (i : Nat)
    (h : ∃ r ∈ db.rows, r.id = i) :
    update_expense db i none none none none (some "") =
      (⟨db.rows.map (fun r => if r.id = i then { r with note := "" } else r),
        db.nextId⟩, .ok i) := by
  have hc := countP_id_ne_zero h
  simp only [update_expense, Option.isSome_some, Option.isSome_none,
    Bool.or_true, if_true, hc, ne_eq, not_false_eq_true, Option.getD_none,
    Option.getD_some]

/-- Witness for C4 at a concrete table and id. -/
theorem update_note_empty_string_witness :
    update_expense foodDb 1 none none none none (some "") =
      (⟨foodDb.rows.map
          (fun r => if r.id = 1 then { r with note := "" } else r),
        foodDb.nextId⟩, .ok 1) :=
  update_note_empty_string foodDb 1 (by decide)

/-- C2 (code bug): every invocation of the `categories` resource fails with
a `NameError` instead of returning the file content, because `aiofiles` is
used in its body but never imported: the name is absent from the module's
global namespace, so evaluation raises before the file is opened. -/
theorem categories_read_raises_nameError (fileContent : String) :
    categories mainModuleNames fileContent =
      Except.error "NameError: name aiofiles is not defined" := rfl

/-- C9: record ids are immutable and the required fields are never NULL:
`update_expense` never changes any row's id whatever subset of fields it
supplies, `delete_expense` only ever removes rows (every surviving row is an
unchanged row of the old table), and an insert can only succeed when `date`,
`amount` and `category` are all non-NULL (the `NOT NULL` constraints
declared by `init_db`). -/
theorem id_immutable_required_nonnull :
    (∀ (db : DB) (i : Nat) (d : Option String) (a : Option Rat)
        (c su no : Option String),
      ((update_expense db i d a c su no).1).rows.map (·.id) =
        db.rows.map (·.id)) ∧
    (∀ (db : DB) (i : Nat),
      ((delete_expense db i).1).rows.Sublist db.rows) ∧
    (∀ (db : DB) (d : Option String) (a : Option Rat) (c : Option String)
        (su no : String) (p : DB × Nat),
      addExpenseChecked db d a c su no = .ok p →
      d.isSome = true ∧ a.isSome = true ∧ c.isSome = true) := by
  refine ⟨?_, ?_, ?_⟩
  · intro db i d a c su no
    simp only [update_expense]
    split
    · split
      all_goals
        simp only [List.map_map]
        exact List.map_congr_left fun r hr => by
          by_cases h : r.id = i <;> simp [h]
    · rfl
  · intro db i
    simp only [delete_expense]
    split
    · exact List.filter_sublist _
    · exact List.filter_sublist _
  · intro db d a c su no p h
    cases d <;> cases a <;> cases c <;> simp [addExpenseChecked] at h ⊢

/-- Witness for C9: a successful checked insert forces the three required
fields to be present. -/
theorem id_immutable_required_nonnull_witness :
    (some "2024-01-05" : Option String).isSome = true ∧
    (some (1 : Rat) : Option Rat).isSome = true ∧
    (some "food" : Option String).isSome = true :=
  id_immutable_required_nonnull.2.2 initDb (some "2024-01-05") (some 1)
    (some "food") "" "" (add_expense initDb "2024-01-05" 1 "food") rfl

/-- C3: inserting a record and then listing over any date range containing
its date round-trips it: among the listed rows, those carrying the id
returned by the insert are exactly the inserted record (all five fields
unchanged), and from an empty table the listing is exactly that one
record. -/
theorem add_then_list_roundtrip (db : DB) (d : String) (a : Rat)
    (c su no : String) (s e : String) (hdb : FreshIds db)
    (hs : strLe s d = true) (he : strLe d e = true) :
    ((list_expenses (add_expense db d a c su no).1 s e).filter
        (fun r => decide (r.id = (add_expense db d a c su no).2)) =
      [⟨(add_expense db d a c su no).2, d, a, c, su, no⟩]) ∧
    (db.rows = [] →
      list_expenses (add_expense db d a c su no).1 s e =
        [⟨(add_expense db d a c su no).2, d, a, c, su, no⟩]) := by
  have hnew : dateIn s e ⟨db.nextId, d, a, c, su, no⟩ = true := by
    simp [dateIn, hs, he]
  simp only [add_expense, list_expenses]
  constructor
  · have hq : (db.rows ++
        [(⟨db.nextId, d, a, c, su, no⟩ : Expense)]).filter (dateIn s e) =
        db.rows.filter (dateIn s e) ++
          [(⟨db.nextId, d, a, c, su, no⟩ : Expense)] := by
      rw [List.filter_append]
      simp [hnew]
    have hp : (db.rows.filter (dateIn s e)).filter
        (fun r => decide (r.id = db.nextId)) = [] := by
      rw [List.filter_eq_nil_iff]
      intro r hr
      have hlt := hdb r (List.mem_filter.mp hr).1
      simp only [decide_eq_true_eq]
      omega
    have hfil : ((db.rows ++
        [(⟨db.nextId, d, a, c, su, no⟩ : Expense)]).filter
          (dateIn s e)).filter (fun r => decide (r.id = db.nextId)) =
        [(⟨db.nextId, d, a, c, su, no⟩ : Expense)] := by
      rw [hq, List.filter_append, hp]
      simp
    have hperm : List.Perm
        ((List.insertionSort (fun x y : Expense => x.id ≤ y.id)
          ((db.rows ++ [(⟨db.nextId, d, a, c, su, no⟩ : Expense)]).filter
            (dateIn s e))).filter (fun r => decide (r.id = db.nextId)))
        [(⟨db.nextId, d, a, c, su, no⟩ : Expense)] := by
      conv_rhs => rw [← hfil]
      exact (List.perm_insertionSort (fun x y : Expense => x.id ≤ y.id)
        _).filter _
    exact List.perm_singleton.mp hperm
  · intro h
    rw [h]
    simp only [List.nil_append, List.filter_cons, List.filter_nil, hnew,
      if_true]
    simp [List.insertionSort]

/-- Witness for C3: insert into the empty table, list January 2024. -/
theorem add_then_list_roundtrip_witness :
    ((list_expenses (add_expense initDb "2024-01-05" 1 "food" "" "").1
        "2024-01-01" "2024-01-31").filter
        (fun r => decide
          (r.id = (add_expense initDb "2024-01-05" 1 "food" "" "").2)) =
      [⟨(add_expense initDb "2024-01-05" 1 "food" "" "").2,
        "2024-01-05", 1, "food", "", ""⟩]) ∧
    (list_expenses (add_expense initDb "2024-01-05" 1 "food" "" "").1
        "2024-01-01" "2024-01-31" =
      [⟨(add_expense initDb "2024-01-05" 1 "food" "" "").2,
        "2024-01-05", 1, "food", "", ""⟩]) := by
  have h := add_then_list_roundtrip initDb "2024-01-05" 1 "food" "" ""
    "2024-01-01" "2024-01-31" (by decide) (by decide) (by decide)
  exact ⟨h.1, h.2 rfl⟩

/-- C8: `list_expenses` returns the full records whose date lies between the
two bounds inclusive in the BINARY collation (lexicographic comparison of
code points): the output is a permutation of the matching rows, a record is
listed exactly when it is stored and in range, and the output is ordered by
ascending id. -/
theorem list_expenses_range_sorted (db : DB) (s e : String) :
    ((list_expenses db s e).Perm (db.rows.filter (dateIn s e))) ∧
    (∀ r, r ∈ list_expenses db s e ↔
      r ∈ db.rows ∧ strLe s r.date = true ∧ strLe r.date e = true) ∧
    ((list_expenses db s e).Pairwise (fun a b => a.id ≤ b.id)) := by
  refine ⟨List.perm_insertionSort _ _, ?_, List.sorted_insertionSort _ _⟩
  intro r
  unfold list_expenses
  rw [List.mem_insertionSort, List.mem_filter]
  simp [dateIn]

/-- C1 (amended): `summarize` output is grouped by category — one row per
distinct category, strictly ascending in the BINARY collation — a category
appears exactly when some record in range (and passing the filter) bears it,
so categories with zero matching records are absent, and each row's total is
the sum of its category's matching amounts.  A *non-empty* category filter
restricts the output to exactly that category; an empty-string filter is
treated by `if category:` as no filter at all, so `summarize` with filter
`""` coincides with the unfiltered call. -/
theorem summarize_grouped_sorted_filtered (db : DB) (s e : String) :
    (∀ co : Option String,
      (((summarize db s e co).map Prod.fst).Pairwise
        (fun x y => strLe x y = true ∧ x ≠ y)) ∧
      (∀ c : String, c ∈ (summarize db s e co).map Prod.fst ↔
        ∃ r ∈ matchingRows db s e co, r.category = c) ∧
      (∀ p ∈ summarize db s e co,
        p.2 = (((matchingRows db s e co).filter
          (fun r => decide (r.category = p.1))).map (·.amount)).sum)) ∧
    (∀ c : String, c ≠ "" →
      ∀ x ∈ (summarize db s e (some c)).map Prod.fst, x = c) ∧
    (summarize db s e (some "") = summarize db s e none) := by
  have hbase : ∀ co : Option String, (summarize db s e co).map Prod.fst =
      List.insertionSort (fun a b : String => strLe a b = true)
        (((matchingRows db s e co).map (·.category)).dedup) := by
    intro co
    simp only [summarize, List.map_map]
    exact (List.map_congr_left fun c _ => rfl).trans (List.map_id _)
  have hmem : ∀ (co : Option String) (c : String),
      c ∈ (summarize db s e co).map Prod.fst ↔
        ∃ r ∈ matchingRows db s e co, r.category = c := by
    intro co c
    rw [hbase co, List.mem_insertionSort, List.mem_dedup, List.mem_map]
  refine ⟨fun co => ⟨?_, hmem co, ?_⟩, ?_, ?_⟩
  · rw [hbase co]
    exact (List.sorted_insertionSort _ _).imp₂ (fun x y h hne => ⟨h, hne⟩)
      (((List.perm_insertionSort _ _).nodup_iff).mpr (List.nodup_dedup _))
  · intro p hp
    simp only [summarize, List.mem_map] at hp
    rcases hp with ⟨cat, hcat, rfl⟩
    rfl
  · intro c hc x hx
    rcases (hmem (some c) x).mp hx with ⟨r, hr, hrc⟩
    have hr' : r ∈ (db.rows.filter (dateIn s e)).filter
        (fun r => decide (r.category = c)) := by
      simpa [matchingRows, hc] using hr
    have hcat := (List.mem_filter.mp hr').2
    simp only [decide_eq_true_eq] at hcat
    rw [← hrc, hcat]
  · simp [summarize, matchingRows]

/-- Counterexample to C1 as stated: on a table whose only record (in range)
has category `food`, supplying the category value `""` as the filter does
not restrict the output to that one category — the `food` row is still
returned, because `if category:` treats the empty string as "no filter". -/
theorem summarize_empty_filter_counterexample :
    "food" ∈ (summarize foodDb "2024-01-01" "2024-12-31"
      (some "")).map Prod.fst ∧ "food" ≠ "" := by decide

/-- Witness for C1 at a concrete table: the non-empty filter `food` yields
only the category `food`, and `food` appears in the unfiltered summary
because a matching record bears it. -/
theorem summarize_grouped_sorted_filtered_witness :
    ("food" : String) = "food" ∧
    "food" ∈ (summarize foodDb "2024-01-01" "2024-12-31" none).map
      Prod.fst := by
  have h := summarize_grouped_sorted_filtered foodDb "2024-01-01"
    "2024-12-31"
  refine ⟨h.2.1 "food" (by decide) "food" (by decide), ?_⟩
  exact ((h.1 none).2.1 "food").mpr
    ⟨⟨1, "2024-01-05", 1, "food", "", ""⟩, by decide, rfl⟩

end ExpenseTracker
